import Mathlib

/-!
Verification development for the deno-rsc-starter request core: the pattern
router with ordered middleware dispatch (main module), the request-scoped
storage (context module), the action processor, the response assembler /
redirect forwarder, and the header/cookie merger (entry.rsc module).

The embedding is shallow: JavaScript strings are Lean `String`, a JS
`Headers` object is an ordered list of lowercased (name, value) pairs,
thrown JS values are an explicit `JsVal` carried in `Except`, and the
external facilities the code calls (React argument decoding, server action
lookup, the proxied `fetch`, WHATWG relative-URL resolution) are oracles
supplied through an `Env` record that theorems quantify over.
-/

namespace Gleez

/-- ASCII lowercase of a character; models the lowercasing JavaScript
applies to header names. -/
def asciiLower (c : Char) : Char :=
  if 'A' ≤ c ∧ c ≤ 'Z' then Char.ofNat (c.toNat + 32) else c

/-- Lowercase a string (header-name normalization). -/
def lowerStr (s : String) : String := ⟨s.data.map asciiLower⟩

/-- Whether the first character list is an initial segment of the second. -/
def leadChars : List Char → List Char → Bool
  | [], _ => true
  | _ :: _, [] => false
  | a :: as, b :: bs => a = b && leadChars as bs

/-- Substring test on character lists; models String.prototype.includes. -/
def containsChars (pat : List Char) : List Char → Bool
  | [] => leadChars pat []
  | c :: rest => leadChars pat (c :: rest) || containsChars pat rest

/-- Models JavaScript s.includes(pat). -/
def strIncludes (s pat : String) : Bool := containsChars pat.data s.data

/-- Models JavaScript s.startsWith(pat). -/
def strStartsWith (s pat : String) : Bool := leadChars pat.data s.data

/-- Whitespace for trimming, as in String.prototype.trim. -/
def isWs (c : Char) : Bool := c = ' ' ∨ c = '\t' ∨ c = '\n' ∨ c = '\r'

/-- Drop leading whitespace characters. -/
def dropLeadWs : List Char → List Char
  | [] => []
  | c :: rest => if isWs c then dropLeadWs rest else c :: rest

/-- Models String.prototype.trim (both ends). -/
def trimStr (s : String) : String :=
  ⟨(dropLeadWs (dropLeadWs s.data.reverse).reverse)⟩

/-- Split a character list on a single separator character; models
JavaScript s.split(sep) for a one-character separator (always returns at
least one, possibly empty, segment). -/
def splitChar (sep : Char) : List Char → List (List Char)
  | [] => [[]]
  | c :: rest =>
    let r := splitChar sep rest
    if c = sep then [] :: r
    else
      match r with
      | s :: ss => (c :: s) :: ss
      | [] => [[c]]

/-- Join strings with a separator; models Array.prototype.join. -/
def joinWith (sep : String) : List String → String
  | [] => ""
  | [x] => x
  | x :: xs => x ++ sep ++ joinWith sep xs

/-! ## Headers model

A JS `Headers` object, as used by the source, is modelled as an ordered
list of (lowercased name, value) pairs.  `hGet` joins multiple values with
", " the way Headers.get does; `set-cookie` entries stay separate and are
read back with `hGetAll`, the way Headers.getSetCookie does. -/

/-- Model of a JS Headers object. -/
abbrev Hdrs := List (String × String)

/-- Headers.append. -/
def hAppend (h : Hdrs) (n v : String) : Hdrs := h ++ [(lowerStr n, v)]

/-- Headers.delete. -/
def hDelete (h : Hdrs) (n : String) : Hdrs :=
  h.filter (fun p => p.1 ≠ lowerStr n)

/-- Headers.set (replaces every existing value for the name). -/
def hSet (h : Hdrs) (n v : String) : Hdrs := hDelete h n ++ [(lowerStr n, v)]

/-- All raw values stored under a name, in insertion order
(Headers.getSetCookie when the name is set-cookie). -/
def hGetAll (h : Hdrs) (n : String) : List String :=
  (h.filter (fun p => p.1 = lowerStr n)).map Prod.snd

/-- Headers.get: null when absent, otherwise the values joined with ", ". -/
def hGet (h : Hdrs) (n : String) : Option String :=
  match hGetAll h n with
  | [] => none
  | vs => some (joinWith ", " vs)

/-- Build a Headers object from literal (name, value) pairs, normalizing
names, as the Headers constructor does. -/
def mkHeaders (l : List (String × String)) : Hdrs :=
  l.foldl (fun h p => hAppend h p.1 p.2) []

/-! ## Cookie parsing (std/http/cookie) and the header/cookie merger -/

/-- Insertion-order map update: models both Record\x5bkey\x5d = value and
Map.prototype.set (an existing key keeps its position, a new key is
appended). -/
def assocSet (m : List (String × String)) (k v : String) :
    List (String × String) :=
  if m.any (fun p => p.1 = k) then
    m.map (fun p => if p.1 = k then (k, v) else p)
  else m ++ [(k, v)]

/-- Map.prototype.delete. -/
def assocDelete (m : List (String × String)) (k : String) :
    List (String × String) :=
  m.filter (fun p => p.1 ≠ k)

/-- std getCookies: parse the request Cookie header into an
insertion-ordered name/value map.  Each ";"-segment is split at its first
"="; the key is trimmed, the remainder (joined back with "=") is the
value. -/
def getCookies (h : Hdrs) : List (String × String) :=
  match hGet h "Cookie" with
  | none => []
  | some c =>
    (splitChar ';' c.data).foldl
      (fun out kv =>
        match splitChar '=' kv with
        | [] => out
        | k :: rest =>
          assocSet out (trimStr ⟨k⟩)
            (joinWith "=" (rest.map (fun l => (⟨l⟩ : String))))) []

/-- std parseSetCookie restricted to the name/value pair: the first
";"-segment, trimmed, split at its first "="; an empty name yields null.
Cookie attributes (Path, Expires, ...) are carried verbatim inside the
value-free tail by the real parser and are not read by any code path the
claims touch, so the model keeps only name and value. -/
def parseSetCookie (s : String) : Option (String × String) :=
  match splitChar ';' s.data with
  | [] => none
  | first :: _ =>
    match splitChar '=' (trimStr ⟨first⟩).data with
    | [] => none
    | k :: rest =>
      if (⟨k⟩ : String) = "" then none
      else some (⟨k⟩, joinWith "=" (rest.map (fun l => (⟨l⟩ : String))))

/-- std getSetCookies: every set-cookie header value, parsed, nulls
filtered out. -/
def getSetCookies (h : Hdrs) : List (String × String) :=
  (hGetAll h "set-cookie").filterMap parseSetCookie

/-- std setCookie: serialize the cookie and append it as a Set-Cookie
header (a cookie with an empty name serializes to nothing and is not
appended). -/
def setCookie (h : Hdrs) (c : String × String) : Hdrs :=
  if c.1 = "" then h else hAppend h "Set-Cookie" (c.1 ++ "=" ++ c.2)

/-- entry.rsc mergeHeaders: for each source in order, fold its Cookie
header cookies and then its Set-Cookie entries into one working map (an
empty Set-Cookie value deletes the name), and append every other header
verbatim; finally serialize the surviving map entries (values still equal
to "" are filtered out) into a single Cookie header, omitted when empty. -/
def mergeHeaders (sources : List Hdrs) : Hdrs :=
  let step : Hdrs × List (String × String) → Hdrs → Hdrs × List (String × String) :=
    fun acc src =>
      let cookies1 := (getCookies src).foldl (fun m p => assocSet m p.1 p.2) acc.2
      let cookies2 := (getSetCookies src).foldl
        (fun m c => if c.2 = "" then assocDelete m c.1 else assocSet m c.1 c.2)
        cookies1
      let result := src.foldl
        (fun r p => if p.1 = "cookie" || p.1 = "set-cookie" then r else hAppend r p.1 p.2)
        acc.1
      (result, cookies2)
  let fin := sources.foldl step ([], [])
  let cookieString :=
    joinWith "; " ((fin.2.filter (fun p => p.2 ≠ "")).map (fun p => p.1 ++ "=" ++ p.2))
  if cookieString ≠ "" then hSet fin.1 "Cookie" cookieString else fin.1

/-! ## Request-scoped storage (context module)

`createRouteStorage` closes over one mutable `ClientRouteState`; its
`redirect` and `revalidatePath` closures are embedded as the pure state
transformers `redirectApply` and `revalidateApply`, and
`getCurrentClientRouteState` (a structuredClone) is the state value
itself. -/

/-- ClientRouteState.revalidatePaths entry: \x7b path, type? \x7d with
type one of "page" or "layout". -/
structure RevalidateEntry where
  path : String
  ty : Option String
  deriving DecidableEq, Repr

/-- ClientRouteState.redirect: \x7b url, status \x7d. -/
structure RedirectIntent where
  url : String
  status : Nat
  deriving DecidableEq, Repr

/-- The per-request client route state tracked by createRouteStorage. -/
structure ClientRouteState where
  revalidatePaths : List RevalidateEntry
  redirect : Option RedirectIntent
  deriving DecidableEq, Repr

/-- The state a fresh createRouteStorage call starts from. -/
def initialClientRouteState : ClientRouteState := ⟨[], none⟩

/-- The storage's redirect(url, options): overwrites the pending redirect;
an omitted status defaults to 303. -/
def redirectApply (st : ClientRouteState) (url : String) (status : Option Nat) :
    ClientRouteState :=
  { st with redirect := some ⟨url, status.getD 303⟩ }

/-- The storage's revalidatePath(path, type): appends to the ordered
revalidate-paths list. -/
def revalidateApply (st : ClientRouteState) (path : String) (ty : Option String) :
    ClientRouteState :=
  { st with revalidatePaths := st.revalidatePaths ++ [⟨path, ty⟩] }

/-- One call made against the storage during a request. -/
inductive StorageOp where
  | redirectOp (url : String) (status : Option Nat)
  | revalidateOp (path : String) (ty : Option String)
  deriving DecidableEq, Repr

/-- Apply one storage call to the client route state. -/
def applyOp (st : ClientRouteState) : StorageOp → ClientRouteState
  | .redirectOp u s => redirectApply st u s
  | .revalidateOp p t => revalidateApply st p t

/-- Apply a whole call sequence in order. -/
def applyOps (st : ClientRouteState) (ops : List StorageOp) : ClientRouteState :=
  ops.foldl applyOp st

/-- The (url, status option) of the last redirect call in a sequence, if
any. -/
def lastRedirectOf : List StorageOp → Option (String × Option Nat)
  | [] => none
  | .redirectOp u s :: rest =>
    match lastRedirectOf rest with
    | some x => some x
    | none => some (u, s)
  | .revalidateOp _ _ :: rest => lastRedirectOf rest

/-! ## Ambient storage mechanism (AsyncLocalStorage + react cache)

The context module keeps the live storage in an AsyncLocalStorage and, for
calls arriving outside any `runWith` scope, a react-cache memoized
placeholder object whose methods throw "Not available".
`runWithRouteStorage` starts by Object.assign-ing the real storage's
fields over the cached placeholder before entering the scope.  The world
model below embeds exactly this: a heap of storage objects (each method is
either the throwing placeholder behaviour or a reference to a live state
cell), the cache slot, the AsyncLocalStorage stack, and the per-request
state cells. -/

/-- Thrown JS values: either an Error instance (with message) or some
non-Error value. -/
inductive JsVal where
  | str (s : String)
  | num (n : Int)
  | bool (b : Bool)
  | error (msg : String)
  | undef
  deriving DecidableEq, Repr

/-- instanceof Error. -/
def JsVal.isError : JsVal → Bool
  | .error _ => true
  | _ => false

/-- Behaviour of one storage method: the placeholder's throwing stub, or
the real closure acting on the live state cell `sid`. -/
inductive MethodB where
  | notAvailable
  | live (sid : Nat)
  deriving DecidableEq, Repr

/-- A storage object on the heap: the own enumerable members Object.assign
copies (redirect, revalidatePath, getCurrentClientRouteState, and the
context.request accessor). -/
structure StorageObj where
  redirectB : MethodB
  revalidateB : MethodB
  getStateB : MethodB
  requestB : MethodB
  deriving DecidableEq, Repr

/-- The react-cache placeholder: every method throws "Not available". -/
def placeholderObj : StorageObj := ⟨.notAvailable, .notAvailable, .notAvailable, .notAvailable⟩

/-- The whole ambient-storage world: object heap, the react-cache slot of
the current cache scope, the AsyncLocalStorage stack, and the live
per-request client route states. -/
structure World where
  objs : List StorageObj
  cacheSlot : Option Nat
  alsStack : List Nat
  cells : List ClientRouteState
  deriving DecidableEq, Repr

/-- Allocate an object on the heap. -/
def allocObj (w : World) (o : StorageObj) : Nat × World :=
  (w.objs.length, { w with objs := w.objs ++ [o] })

/-- Overwrite an object in place (the effect of Object.assign). -/
def setObj (w : World) (i : Nat) (o : StorageObj) : World :=
  { w with objs := w.objs.set i o }

/-- Read an object off the heap. -/
def getObj (w : World) (i : Nat) : StorageObj :=
  w.objs.getD i placeholderObj

/-- getRouteCache: return the memoized placeholder of the current cache
scope, creating and caching it on first use. -/
def getRouteCacheW (w : World) : Nat × World :=
  match w.cacheSlot with
  | some i => (i, w)
  | none =>
    let a := allocObj w placeholderObj
    (a.1, { a.2 with cacheSlot := some a.1 })

/-- getRouteContext: the AsyncLocalStorage store when a scope is active,
else the react-cache placeholder. -/
def getRouteContextW (w : World) : Nat × World :=
  match w.alsStack with
  | i :: _ => (i, w)
  | [] => getRouteCacheW w

/-- createRouteStorage: allocate a fresh client route state cell and a
storage object whose methods act on it. -/
def createRouteStorageW (w : World) : Nat × World :=
  let sid := w.cells.length
  let w1 := { w with cells := w.cells ++ [initialClientRouteState] }
  allocObj w1 ⟨.live sid, .live sid, .live sid, .live sid⟩

/-- runWithRouteStorage: Object.assign the store over the cached
placeholder, and again over whatever getRouteContext currently returns,
then run the callback inside the AsyncLocalStorage scope. -/
def runWithRouteStorageW (w : World) (storeId : Nat) (body : World → World) : World :=
  let a := getRouteCacheW w
  let w1 := setObj a.2 a.1 (getObj a.2 storeId)
  let b := getRouteContextW w1
  let w2 := setObj b.2 b.1 (getObj b.2 storeId)
  let w3 := { w2 with alsStack := storeId :: w2.alsStack }
  let w4 := body w3
  { w4 with alsStack := w4.alsStack.tail }

/-- Invoke the redirect method of the storage object `oid`: the
placeholder stub throws "Not available", the real closure overwrites the
pending redirect of its request's state cell. -/
def callRedirectW (w : World) (oid : Nat) (url : String) (status : Option Nat) :
    Except JsVal World :=
  match (getObj w oid).redirectB with
  | .notAvailable => .error (.error "Not available")
  | .live sid =>
    let c := w.cells.getD sid initialClientRouteState
    .ok { w with cells := w.cells.set sid (redirectApply c url status) }

/-! ## Requests and responses -/

/-- An incoming HTTP request as the handlers see it. -/
structure RequestM where
  method : String
  url : String
  headers : Hdrs
  body : String
  deriving DecidableEq, Repr

/-- An action's returnValue payload member: \x7b ok, data \x7d. -/
structure ReturnValue where
  ok : Bool
  data : JsVal
  deriving DecidableEq, Repr

/-- Response bodies the modelled code constructs: null, plain text, the
serialized RSC payload stream of \x7b returnValue, formState \x7d, or the
proxied upstream body (identified by a tag). -/
inductive BodyM where
  | empty
  | text (s : String)
  | rscPayload (returnValue : Option ReturnValue) (formState : Option JsVal)
  | proxied (tag : Nat)
  deriving DecidableEq, Repr

/-- A constructed HTTP response. -/
structure ResponseM where
  status : Nat := 200
  headers : Hdrs := []
  body : BodyM := .empty
  deriving DecidableEq, Repr

/-! ## Pattern router (main module)

Handlers may throw: they are embedded as functions into
`Except JsVal ResponseM`, the error branch carrying the thrown JS value.
URLPattern matching is opaque to the router, so a route's `pattern` is
embedded as its matching semantics: a function from the request url to an
optional match result (the named capture groups). -/

/-- A URLPattern match result: the named pathname groups. -/
abbrev ParamsM := List (String × String)

/-- The per-dispatch Context.  The derived `param`/`query` accessors and
the `json`/`text`/`html` response helpers are pure functions of the
fields kept here and are read by no claim, so they are not reproduced. -/
structure CtxM (σ : Type) where
  request : RequestM
  params : Option ParamsM
  url : String
  info : Option Nat
  state : σ
  next : Unit → Except JsVal ResponseM

/-- A registered route.  `method` is undefined, one verb, or a verb set;
one verb and a one-element set behave identically, so both are embedded
as a list. -/
structure RouteM (σ : Type) where
  method : Option (List String) := none
  pattern : String → Option ParamsM
  handler : CtxM σ → Except JsVal ResponseM

/-- The router record. -/
structure RouterM (σ : Type) where
  routes : List (RouteM σ)
  initializeState : Unit → σ
  handleDefault : CtxM σ → Except JsVal ResponseM
  handleError : JsVal → CtxM σ → ResponseM

/-- toPartialContext: the minimal context handed to the default and error
handlers; params is undefined and next resolves to a canned
"Internal error" response. -/
def toPartialContextM (req : RequestM) (info : Option Nat) (state : σ) : CtxM σ :=
  { request := req
    params := none
    url := req.url
    info := info
    state := state
    next := fun _ => .ok { status := 200, headers := [], body := .text "Internal error" } }

/-- The context built for a matched route inside execute. -/
def mkCtxM (req : RequestM) (p : ParamsM) (info : Option Nat) (state : σ)
    (next : Unit → Except JsVal ResponseM) : CtxM σ :=
  { request := req
    params := some p
    url := req.url
    info := info
    state := state
    next := next }

/-- Method matching of the std route helper: an undefined method matches
any verb (per the router's documented behaviour), otherwise the verb must
be among the declared ones. -/
def methodMatches : Option (List String) → String → Bool
  | none, _ => true
  | some ms, m => ms.contains m

/-- Whether a route's pattern and method both match a request. -/
def routeMatches (r : RouteM σ) (req : RequestM) : Bool :=
  (r.pattern req.url).isSome && methodMatches r.method req.method

/-- The execute chain: try the remaining routes in order; a route whose
pattern and method match runs its handler with `next` bound to continue
from the routes after it; a non-matching route falls through to the same
continuation; past the end, the default handler runs on a partial
context. -/
def execute (hd : CtxM σ → Except JsVal ResponseM) (req : RequestM)
    (info : Option Nat) (state : σ) : List (RouteM σ) → Except JsVal ResponseM
  | [] => hd (toPartialContextM req info state)
  | r :: rs =>
    let nxt := fun (_ : Unit) => execute hd req info state rs
    match r.pattern req.url with
    | some p => if methodMatches r.method req.method then r.handler (mkCtxM req p info state nxt) else nxt ()
    | none => nxt ()

/-- The router's fetch: run the chain with the supplied state (falling
back to initializeState), catch a thrown value at the top; an Error
instance is delegated to the error handler on a partial context (whose
state falls back to the empty-object cast, embedded as `default`), any
other thrown value is rethrown to the caller. -/
def RouterM.fetch [Inhabited σ] (router : RouterM σ) (req : RequestM)
    (info : Option Nat) (state? : Option σ) : Except JsVal ResponseM :=
  match execute router.handleDefault req info (state?.getD (router.initializeState ())) router.routes with
  | .ok r => .ok r
  | .error e =>
    if e.isError then
      .ok (router.handleError e (toPartialContextM req info (state?.getD default)))
    else .error e

/-! ## URLs

A minimal model of WHATWG parsing for hierarchical scheme://host URLs,
which is the shape every URL handled by the claims has.  A string without
a nonempty "scheme://host" head fails to parse, exactly as `new URL`
throws on it; in particular a bare path such as "/" is not a valid URL
when no base is supplied. -/

/-- A parsed absolute URL. -/
structure UrlM where
  origin : String
  pathname : String
  search : String
  deriving DecidableEq, Repr

/-- url.href. -/
def UrlM.href (u : UrlM) : String := u.origin ++ u.pathname ++ u.search

/-- url.href.replace(url.origin, ""): the href starts with the origin, so
the first occurrence removed leaves pathname and search. -/
def UrlM.hrefOriginStripped (u : UrlM) : String := u.pathname ++ u.search

/-- Split a character list at the first "://". -/
def splitSchemeSep : List Char → Option (List Char × List Char)
  | [] => none
  | ':' :: '/' :: '/' :: rest => some ([], rest)
  | c :: rest =>
    match splitSchemeSep rest with
    | some (pre, post) => some (c :: pre, post)
    | none => none

/-- Take characters until one of the stop characters (kept on the right). -/
def takeUntilAny (stops : List Char) : List Char → List Char × List Char
  | [] => ([], [])
  | c :: rest =>
    if stops.contains c then ([], c :: rest)
    else
      let r := takeUntilAny stops rest
      (c :: r.1, r.2)

/-- new URL(s) for an absolute hierarchical URL: scheme "://" host, then
an optional /path, then query/fragment; an empty scheme or host, or a
missing "://", is a parse failure (the constructor throws). -/
def parseURL (s : String) : Option UrlM :=
  match splitSchemeSep s.data with
  | none => none
  | some (scheme, rest) =>
    if scheme.isEmpty then none
    else
      let hp := takeUntilAny ['/', '?', '#'] rest
      if hp.1.isEmpty then none
      else
        let origin : String := (⟨scheme⟩ : String) ++ "://" ++ (⟨hp.1⟩ : String)
        match hp.2 with
        | [] => some ⟨origin, "/", ""⟩
        | c :: restPath =>
          if c = '/' then
            let pp := takeUntilAny ['?', '#'] (c :: restPath)
            some ⟨origin, ⟨pp.1⟩, ⟨pp.2⟩⟩
          else some ⟨origin, "/", ⟨c :: restPath⟩⟩

/-! ## Action processor and response assembler (entry.rsc module) -/

/-- The HTTP header carrying the server action id for fetch actions. -/
def rscActionHeader : String := "x-rsc-action-id"

/-- The response header carrying the client-side redirect path. -/
def rscRedirectHeader : String := "x-rsc-action-redirect-path"

/-- The response header carrying the serialized revalidate-paths list. -/
def rscRevalidateHeader : String := "x-rsc-revalidate-paths"

/-- The mutable backing of one request's RouteStorage: the client route
state closed over by createRouteStorage plus the shared response header
collection. -/
structure StoreState where
  clientState : ClientRouteState
  responseHeaders : Hdrs
  deriving DecidableEq, Repr

/-- A request body after the content-type driven read: multipart bodies
arrive as form data, everything else as text. -/
inductive BodyRead where
  | form (fd : JsVal)
  | text (s : String)

/-- A server action invoked with decoded arguments: it may mutate the
ambient storage (state threading) and either return a value or throw. -/
def ActionFn : Type := JsVal → StoreState → (Except JsVal JsVal) × StoreState

/-- A decoded progressive-enhancement form action (already bound to its
arguments). -/
def ActionFn0 : Type := StoreState → (Except JsVal JsVal) × StoreState

/-- A proxied fetch response: its headers and an opaque body tag. -/
structure FetchResp where
  headers : Hdrs
  bodyTag : Nat

/-- The external facilities the entry.rsc handlers call, embedded as
oracles: body reading, the React argument/form decoding functions, server
action lookup, WHATWG relative-URL resolution against a base, and the
proxied fetch (None models a rejected fetch). -/
structure Env where
  readFormData : RequestM → Except JsVal JsVal
  readText : RequestM → Except JsVal String
  decodeReply : BodyRead → Except JsVal JsVal
  loadServerAction : String → Except JsVal ActionFn
  decodeAction : JsVal → Except JsVal (Option ActionFn0)
  decodeFormState : JsVal → JsVal → Except JsVal JsVal
  resolve : String → String → Option UrlM
  fetch : String → Hdrs → Option FetchResp

/-- The ProcessedAction result record. -/
structure ProcessedAction where
  isAction : Bool
  returnValue : Option ReturnValue := none
  formState : Option JsVal := none
  temporaryReferences : Bool := false
  actionStatus : Option Nat := none
  deriving DecidableEq, Repr

/-- Read the fetch-action request body: multipart content types are
parsed as form data, anything else (including an absent content type) is
read as text. -/
def bodyRead (req : RequestM) (env : Env) : Except JsVal BodyRead :=
  match hGet req.headers "content-type" with
  | some ct =>
    if strStartsWith ct "multipart/form-data" then
      (env.readFormData req).map BodyRead.form
    else (env.readText req).map BodyRead.text
  | none => (env.readText req).map BodyRead.text

/-- The progressive-enhancement branch of processAction: parse the body
as form data, try to decode an embedded action reference; no reference
means \x7b isAction: false \x7d; otherwise run the action and convert its
result to formState, a throw from either step yielding only a 500 status
override. -/
def processFormCase (req : RequestM) (env : Env) (st : StoreState) :
    Except JsVal (ProcessedAction × StoreState) :=
  match env.readFormData req with
  | .error e => .error e
  | .ok fd =>
    match env.decodeAction fd with
    | .error e => .error e
    | .ok none => .ok ({ isAction := false }, st)
    | .ok (some act) =>
      match act st with
      | (.ok result, st') =>
        match env.decodeFormState result fd with
        | .ok fs => .ok ({ isAction := true, formState := some fs }, st')
        | .error _ => .ok ({ isAction := true, actionStatus := some 500 }, st')
      | (.error _, st') => .ok ({ isAction := true, actionStatus := some 500 }, st')

/-- processAction: non-POST requests are \x7b isAction: false \x7d
immediately; a POST with a (truthy) action-id header is a fetch-style
call whose body is read and decoded and whose action runs inside the
try/catch that turns a throw into \x7b ok: false, data \x7d with a 500
status override; a POST without the header is the progressive-enhancement
case. -/
def processAction (req : RequestM) (env : Env) (st : StoreState) :
    Except JsVal (ProcessedAction × StoreState) :=
  if req.method ≠ "POST" then .ok ({ isAction := false }, st)
  else
    match hGet req.headers rscActionHeader with
    | some aid =>
      if aid ≠ "" then
        match bodyRead req env with
        | .error e => .error e
        | .ok body =>
          match env.decodeReply body with
          | .error e => .error e
          | .ok args =>
            match env.loadServerAction aid with
            | .error e => .error e
            | .ok action =>
              match action args st with
              | (.ok data, st') =>
                .ok ({ isAction := true, returnValue := some ⟨true, data⟩,
                       temporaryReferences := true }, st')
              | (.error e, st') =>
                .ok ({ isAction := true, returnValue := some ⟨false, e⟩,
                       actionStatus := some 500, temporaryReferences := true }, st')
      else processFormCase req env st
    | none => processFormCase req env st

/-- JSON.stringify of one revalidate-paths entry (an undefined type is
omitted, as JSON.stringify drops undefined members). -/
def serializeRevalidateEntry (e : RevalidateEntry) : String :=
  "\x7b\"path\":\"" ++ e.path ++ "\"" ++
    (match e.ty with
     | none => ""
     | some t => ",\"type\":\"" ++ t ++ "\"") ++ "\x7d"

/-- JSON.stringify of the revalidate-paths list. -/
def serializeRevalidatePaths (ps : List RevalidateEntry) : String :=
  "[" ++ joinWith "," (ps.map serializeRevalidateEntry) ++ "]"

/-- The header set forwarded with the proxied redirect fetch: the merge of
(request headers, pending response headers) with Transfer-Encoding and
the action-id header removed. -/
def forwardedHeadersOf (req : RequestM) (responseHeaders : Hdrs) : Hdrs :=
  hDelete (hDelete (mergeHeaders [req.headers, responseHeaders]) "transfer-encoding")
    rscActionHeader

/-- Whether a proxied response is a streaming-payload (RSC) response:
its content type starts with text/x-component. -/
def isRSCResponse (resp : FetchResp) : Bool :=
  match hGet resp.headers "content-type" with
  | some ct => strStartsWith ct "text/x-component"
  | none => false

/-- The RSC-branch header rewrite of serverRedirect: copy the proxied
response headers, drop their Set-Cookie entries, attach the serialized
revalidate-paths when non-empty, append the Set-Cookie entries parsed
from (pending response headers, proxied response headers) in order, and
set the redirect-path header to the target href with its origin
stripped. -/
def rscRewriteHeaders (clientRouteState : ClientRouteState)
    (responseHeaders respHeaders : Hdrs) (u : UrlM) : Hdrs :=
  let rh := hDelete respHeaders "Set-Cookie"
  let rh :=
    if clientRouteState.revalidatePaths.isEmpty then rh
    else hSet rh rscRevalidateHeader (serializeRevalidatePaths clientRouteState.revalidatePaths)
  let rh := (getSetCookies responseHeaders ++ getSetCookies respHeaders).foldl setCookie rh
  hSet rh rscRedirectHeader u.hrefOriginStripped

/-- The generic tail of serverRedirect: cross-origin requests get an
empty 200 body carrying X-Location/X-Status, same-origin ones a plain
HTTP redirect with Location and the requested status, both on the pending
response headers. -/
def redirectFallThrough (responseHeaders : Hdrs) (u : UrlM) (status : Nat)
    (isCrossOrigin : Bool) : ResponseM :=
  if isCrossOrigin then
    { status := 200
      headers := hSet (hSet responseHeaders "X-Location" u.href) "X-Status" (Nat.repr status)
      body := .empty }
  else
    { status := status
      headers := hSet responseHeaders "Location" u.href
      body := .empty }

/-- serverRedirect: resolve the pending redirect against the request URL
(throwing "Redirect not found" when none is pending); a same-origin
request from an Accept header that includes the streaming-payload type
proxies a GET to the target with the merged-and-stripped header set, and
a streaming-payload proxied response is returned with status 200 under
the rewritten headers; otherwise the in-flight fetch is aborted (the
returned flag records whether abort was called) and the generic
cross-origin / plain-redirect tail runs. -/
def serverRedirect (req : RequestM) (store : StoreState) (env : Env) :
    Except JsVal (ResponseM × Bool) :=
  let clientRouteState := store.clientState
  match clientRouteState.redirect with
  | none => .error (.error "Redirect not found")
  | some rd =>
    match env.resolve rd.url req.url with
    | none => .error (.error "Invalid URL")
    | some u =>
      match parseURL req.url with
      | none => .error (.error "Invalid URL")
      | some requrl =>
        let isCrossOrigin := u.origin != requrl.origin
        let acceptRSC :=
          match hGet req.headers "Accept" with
          | some a => strIncludes a "text/x-component"
          | none => false
        if acceptRSC && !isCrossOrigin then
          match env.fetch u.href (forwardedHeadersOf req store.responseHeaders) with
          | some resp =>
            if isRSCResponse resp then
              .ok ({ status := 200
                     headers := rscRewriteHeaders clientRouteState store.responseHeaders resp.headers u
                     body := .proxied resp.bodyTag }, false)
            else .ok (redirectFallThrough store.responseHeaders u rd.status isCrossOrigin, true)
          | none => .ok (redirectFallThrough store.responseHeaders u rd.status isCrossOrigin, true)
        else .ok (redirectFallThrough store.responseHeaders u rd.status isCrossOrigin, false)

/-- The body of the 400 response of the actions endpoint. -/
def actionsOnlyBody : String := "This endpoint only accepts RSC actions."

/-- The actions route handler: create a fresh storage, mark the referer's
pathname for revalidation (new URL(referer or "/") — which throws on an
absent or invalid referer, the catch rethrowing), process the action,
answer non-actions with 400, delegate to serverRedirect when a redirect
is pending, and otherwise stream the \x7b returnValue, formState \x7d
payload with the RSC content type on the pending response headers. -/
def actionsHandler (req : RequestM) (env : Env) : Except JsVal ResponseM :=
  let st0 : StoreState := ⟨initialClientRouteState, []⟩
  let referer := (hGet req.headers "referer").getD ""
  let refStr := if referer = "" then "/" else referer
  match parseURL refStr with
  | none => .error (.error "Invalid URL")
  | some u =>
    let st1 : StoreState := { st0 with clientState := revalidateApply st0.clientState u.pathname none }
    match processAction req env st1 with
    | .error e => .error e
    | .ok (pa, st2) =>
      if pa.isAction = false then
        .ok { status := 400, headers := [], body := .text actionsOnlyBody }
      else if st2.clientState.redirect.isSome then
        (serverRedirect req st2 env).map Prod.fst
      else
        .ok { status := 200
              headers := hSet st2.responseHeaders "Content-Type" "text/x-component;charset=utf-8"
              body := .rscPayload pa.returnValue pa.formState }

/-- The claim's reading of the Set-Cookie re-merge, stated from the
spec's words for comparison with the code: a name-keyed merge of the
Set-Cookie entries of (pending response headers, proxied response
headers) in which a later same-named entry overrides an earlier one. -/
def specSetCookieOverrideMerge (pending proxied : Hdrs) : List (String × String) :=
  (getSetCookies pending ++ getSetCookies proxied).foldl (fun m c => assocSet m c.1 c.2) []

/-! ## Concrete instances used by counterexamples and witnesses -/

/-- An environment whose oracles are never consulted by the runs that use
it (every decode fails loudly, resolution and fetch fail). -/
def sinkEnv : Env where
  readFormData := fun _ => .error (.error "unused")
  readText := fun _ => .error (.error "unused")
  decodeReply := fun _ => .error (.error "unused")
  loadServerAction := fun _ => .error (.error "unused")
  decodeAction := fun _ => .error (.error "unused")
  decodeFormState := fun _ _ => .error (.error "unused")
  resolve := fun _ _ => none
  fetch := fun _ _ => none

/-- A POST to the actions endpoint with no Referer header. -/
def reqNoReferer : RequestM :=
  { method := "POST", url := "http://localhost:8080/action"
    headers := mkHeaders [(rscActionHeader, "a1")], body := "" }

/-- A POST to the actions endpoint whose Referer is not a valid URL. -/
def reqBadReferer : RequestM :=
  { method := "POST", url := "http://localhost:8080/action"
    headers := mkHeaders [(rscActionHeader, "a1"), ("Referer", "not a url")], body := "" }

/-- A GET to the actions endpoint with no Referer header. -/
def reqGetNoReferer : RequestM :=
  { method := "GET", url := "http://localhost:8080/action"
    headers := mkHeaders [], body := "" }

/-- A GET to the actions endpoint with a valid Referer. -/
def reqGetWithReferer : RequestM :=
  { method := "GET", url := "http://localhost:8080/action"
    headers := mkHeaders [("Referer", "http://localhost:8080/page")], body := "" }

/-- A plain GET request for the router examples. -/
def plainReq : RequestM :=
  { method := "GET", url := "http://localhost:8080/", headers := [], body := "" }

/-- A route matching every request whose handler throws a non-Error
string value. -/
def throwStrRoute : RouteM Unit :=
  { pattern := fun _ => some [], handler := fun _ => .error (.str "boom") }

/-- A router registering only `throwStrRoute`. -/
def throwStrRouter : RouterM Unit :=
  { routes := [throwStrRoute]
    initializeState := fun _ => ()
    handleDefault := fun _ => .ok { status := 404, headers := [], body := .text "Not found" }
    handleError := fun _ _ => { status := 500, headers := [], body := .text "handled" } }

/-- A route matching every request whose handler throws an Error. -/
def throwErrRoute : RouteM Unit :=
  { pattern := fun _ => some [], handler := fun _ => .error (.error "kaput") }

/-- A router registering only `throwErrRoute`. -/
def throwErrRouter : RouterM Unit :=
  { routes := [throwErrRoute]
    initializeState := fun _ => ()
    handleDefault := fun _ => .ok { status := 404, headers := [], body := .text "Not found" }
    handleError := fun e _ =>
      { status := 500, headers := []
        body := .text (match e with | .error m => m | _ => "") } }

/-- A pass-through route: matches everything and calls next(). -/
def passRoute : RouteM Unit :=
  { pattern := fun _ => some [], handler := fun c => c.next () }

/-- A terminal route: matches everything and answers 201. -/
def secondRoute : RouteM Unit :=
  { pattern := fun _ => some [], handler := fun _ => .ok { status := 201, headers := [], body := .text "second" } }

/-- A router with two routes that both match every request. -/
def twoMatchRouter : RouterM Unit :=
  { routes := [passRoute, secondRoute]
    initializeState := fun _ => ()
    handleDefault := fun _ => .ok { status := 404, headers := [], body := .text "Not found" }
    handleError := fun _ _ => { status := 500, headers := [], body := .text "handled" } }

/-- The empty ambient-storage world. -/
def emptyWorld : World := ⟨[], none, [], []⟩

/-- A completed request: a storage is created and `runWith` runs (with a
no-op body) and returns, leaving no active scope. -/
def afterRequestWorld : World :=
  let a := createRouteStorageW emptyWorld
  runWithRouteStorageW a.2 a.1 (fun w => w)

/-- Pending response headers carrying Set-Cookie a=1. -/
def pendingHdrs5 : Hdrs := mkHeaders [("Set-Cookie", "a=1")]

/-- Proxied streaming-payload response headers carrying Set-Cookie a=2. -/
def proxiedHdrs5 : Hdrs := mkHeaders [("content-type", "text/x-component"), ("Set-Cookie", "a=2")]

/-- Storage state with a pending redirect to /next and `pendingHdrs5`. -/
def store5 : StoreState := ⟨⟨[], some ⟨"/next", 303⟩⟩, pendingHdrs5⟩

/-- A payload-aware action request on origin http://h. -/
def req5 : RequestM :=
  { method := "POST", url := "http://h/x"
    headers := mkHeaders [("Accept", "text/x-component")], body := "" }

/-- Environment for the redirect-forwarding runs: /next resolves
same-origin and the proxied fetch returns `proxiedHdrs5`. -/
def env5 : Env :=
  { sinkEnv with
    resolve := fun _ _ => some ⟨"http://h", "/next", ""⟩
    fetch := fun _ _ => some ⟨proxiedHdrs5, 7⟩ }

/-- Storage state with a pending 307 redirect to /go. -/
def store7 : StoreState := ⟨⟨[], some ⟨"/go", 307⟩⟩, mkHeaders [("x-extra", "1")]⟩

/-- Environment where /go resolves same-origin but the proxied fetch is
rejected. -/
def env7 : Env := { sinkEnv with resolve := fun _ _ => some ⟨"http://h", "/go", ""⟩ }

/-- Environment for the fetch-action runs: the body decodes, and the
looked-up action always throws an Error "boom". -/
def envThrowingAction : Env :=
  { sinkEnv with
    readText := fun r => .ok r.body
    decodeReply := fun _ => .ok .undef
    loadServerAction := fun _ => .ok (fun _ st => (.error (.error "boom"), st)) }

/-- A fetch-style action POST (action-id header, no content type). -/
def reqAction6 : RequestM :=
  { method := "POST", url := "http://h/act"
    headers := mkHeaders [(rscActionHeader, "a1")], body := "payload" }

/-- A fresh storage state. -/
def freshStore : StoreState := ⟨initialClientRouteState, []⟩

/-- A storage call sequence with two redirect calls, the last omitting
the status option. -/
def c9ops : List StorageOp :=
  [.redirectOp "/a" (some 307), .revalidateOp "/p" none, .redirectOp "/b" none]

end Gleez

namespace Gleez

theorem applyOps_redirect_eq (ops : List StorageOp) (st : ClientRouteState) :
    (applyOps st ops).redirect =
      match lastRedirectOf ops with
      | some (u, s) => some ⟨u, s.getD 303⟩
      | none => st.redirect := by
  induction ops generalizing st with
  | nil => simp [applyOps, lastRedirectOf]
  | cons op rest ih =>
    cases op with
    | redirectOp u s =>
      simp only [applyOps, List.foldl_cons, lastRedirectOf] at *
      rw [ih]
      cases hrest : lastRedirectOf rest with
      | none => simp [applyOp, redirectApply]
      | some x => cases x; simp
    | revalidateOp p t =>
      simp only [applyOps, List.foldl_cons, lastRedirectOf] at *
      rw [ih]
      cases hrest : lastRedirectOf rest with
      | none => simp [applyOp, revalidateApply]
      | some x => cases x; simp

/-- C4: merging a Cookie "a=1" source with a Set-Cookie "a=" source yields
a header set with no Cookie header (the empty Set-Cookie value deletes the
name), and merging Cookie "a=1;b=2" with Set-Cookie "b=3" yields exactly
Cookie "a=1; b=3" (later sources override earlier ones per cookie name). -/
theorem gleez_C4_cookie_merge_roundtrip :
    hGet (mergeHeaders [mkHeaders [("Cookie", "a=1")], mkHeaders [("Set-Cookie", "a=")]])
      "Cookie" = none
    ∧ hGet (mergeHeaders [mkHeaders [("Cookie", "a=1;b=2")], mkHeaders [("Set-Cookie", "b=3")]])
      "Cookie" = some "a=1; b=3" := by
  exact ⟨rfl, rfl⟩

/-- C1: evaluation at the failing inputs.  A POST to the actions endpoint
with an absent Referer header, or one whose Referer is not a valid URL,
does not record "/" and proceed: new URL(referer or "/") throws, the
handler's catch rethrows, and the whole request fails with the thrown
"Invalid URL" Error instead of being processed. -/
theorem gleez_C1_referer_throws :
    actionsHandler reqNoReferer sinkEnv = .error (.error "Invalid URL")
    ∧ actionsHandler reqBadReferer sinkEnv = .error (.error "Invalid URL") :=
  ⟨rfl, rfl⟩

/-- C2 counterexample: a handler that throws the non-Error string "boom"
is not turned into the error handler's response; the router's fetch
propagates the thrown value to its caller, so the claim as stated is
false. -/
theorem gleez_C2_counterexample :
    throwStrRouter.fetch plainReq none none = .error (.str "boom") := rfl

/-- C2 (amended): a value thrown by the chain that is an Error instance
is caught exactly once at the router's top level and turned into the
configured error handler's response on a partial context; non-Error
thrown values are rethrown to fetch's caller. -/
theorem gleez_C2_error_caught_once {σ : Type} [Inhabited σ] (router : RouterM σ)
    (req : RequestM) (info : Option Nat) (state? : Option σ) (e : JsVal)
    (hex : execute router.handleDefault req info
      (state?.getD (router.initializeState ())) router.routes = .error e)
    (he : e.isError = true) :
    router.fetch req info state? =
      .ok (router.handleError e (toPartialContextM req info (state?.getD default))) := by
  simp [RouterM.fetch, hex, he]

/-- C2 witness: a chain throwing the Error "kaput" makes fetch answer
with the error handler's response. -/
theorem gleez_C2_witness :
    execute throwErrRouter.handleDefault plainReq none () throwErrRouter.routes
      = .error (.error "kaput")
    ∧ JsVal.isError (.error "kaput") = true
    ∧ throwErrRouter.fetch plainReq none none =
        .ok (throwErrRouter.handleError (.error "kaput") (toPartialContextM plainReq none ())) :=
  ⟨rfl, rfl,
    gleez_C2_error_caught_once throwErrRouter plainReq none none (.error "kaput") rfl rfl⟩

/-- C3 counterexample: after a request's runWith completes (no scope is
active any more), the ambient accessor returns the cache object that
runWith had Object.assign-ed the real storage over, and calling its
redirect method does not throw "Not available" — it succeeds and mutates
the completed request's client route state. -/
theorem gleez_C3_counterexample :
    afterRequestWorld.alsStack = []
    ∧ (getRouteContextW afterRequestWorld).1 = 1
    ∧ callRedirectW (getRouteContextW afterRequestWorld).2 (getRouteContextW afterRequestWorld).1
        "/elsewhere" none =
      .ok { afterRequestWorld with
            cells := [{ revalidatePaths := [], redirect := some ⟨"/elsewhere", 303⟩ }] } :=
  ⟨rfl, rfl, rfl⟩

/-- C3 (amended): while no runWith scope is active AND the current cache
scope's cached storage is still the untouched placeholder (in particular
before any runWith has run in that scope), the ambient accessor returns
the placeholder, whose methods throw "Not available"; once runWith runs
it overwrites that cached placeholder with the real storage, so this
guarantee is limited to the pre-runWith phase. -/
theorem gleez_C3_placeholder_before_runWith (w : World) (h1 : w.alsStack = [])
    (h2 : ∀ i, w.cacheSlot = some i → getObj w i = placeholderObj) :
    getObj (getRouteContextW w).2 (getRouteContextW w).1 = placeholderObj
    ∧ ∀ url st, callRedirectW (getRouteContextW w).2 (getRouteContextW w).1 url st =
        .error (.error "Not available") := by
  have hctx : getRouteContextW w = getRouteCacheW w := by
    unfold getRouteContextW
    rw [h1]
  have hmain : getObj (getRouteCacheW w).2 (getRouteCacheW w).1 = placeholderObj := by
    unfold getRouteCacheW
    cases hc : w.cacheSlot with
    | some i => simpa using h2 i hc
    | none =>
      simp only [allocObj, getObj, List.getD]
      rw [List.get?_concat_length]
      rfl
  refine ⟨by rw [hctx]; exact hmain, ?_⟩
  intro url st
  rw [hctx]
  unfold callRedirectW
  rw [hmain]
  rfl

/-- C3 witness: in the empty world (no scope, nothing cached yet) the
accessor yields the placeholder and its redirect call throws. -/
theorem gleez_C3_witness :
    getObj (getRouteContextW emptyWorld).2 (getRouteContextW emptyWorld).1 = placeholderObj
    ∧ callRedirectW (getRouteContextW emptyWorld).2 (getRouteContextW emptyWorld).1 "/x" none =
        .error (.error "Not available") := by
  have h := gleez_C3_placeholder_before_runWith emptyWorld rfl
    (fun i hi => by simp [emptyWorld] at hi)
  exact ⟨h.1, h.2 "/x" none⟩

/-- C9: redirect calls overwrite: for any sequence of storage calls made
during one request, the state (and hence every subsequent
getCurrentClientRouteState snapshot, which is a structural copy of it)
carries exactly the last redirect call's URL and status, a call that
omitted the status option recording 303. -/
theorem gleez_C9_last_redirect_wins (ops : List StorageOp) (st : ClientRouteState)
    (u : String) (s : Option Nat) (h : lastRedirectOf ops = some (u, s)) :
    (applyOps st ops).redirect = some ⟨u, s.getD 303⟩ := by
  rw [applyOps_redirect_eq, h]

/-- C9 witness: redirect /a 307, revalidate /p, then redirect /b with no
status leaves exactly \x7b url := /b, status := 303 \x7d. -/
theorem gleez_C9_witness :
    lastRedirectOf c9ops = some ("/b", none)
    ∧ (applyOps initialClientRouteState c9ops).redirect = some ⟨"/b", 303⟩ :=
  ⟨rfl, gleez_C9_last_redirect_wins c9ops initialClientRouteState "/b" none rfl⟩

/-- C10 counterexample: a GET that reaches the actions handler with no
Referer header is not answered with the 400 "This endpoint only accepts
RSC actions." response; the handler throws "Invalid URL" before reaching
the action check, so the claim as stated is false. -/
theorem gleez_C10_counterexample :
    actionsHandler reqGetNoReferer sinkEnv = .error (.error "Invalid URL")
    ∧ actionsHandler reqGetNoReferer sinkEnv ≠
        .ok { status := 400, headers := [], body := .text actionsOnlyBody } := by
  refine ⟨rfl, fun h => ?_⟩
  rw [show actionsHandler reqGetNoReferer sinkEnv = Except.error (JsVal.error "Invalid URL") from rfl] at h
  exact Except.noConfusion h

/-- C10 (amended): for every non-POST request reaching the actions
handler whose Referer header is present, non-empty and a valid absolute
URL, processAction answers \x7b isAction: false \x7d without consulting
any of the environment's body/decoding/action oracles, and the handler
responds 400 with body "This endpoint only accepts RSC actions." — even
though the actions route object declares both GET and POST; without such
a Referer the handler instead throws before reaching this check. -/
theorem gleez_C10_nonpost_400 (req : RequestM) (env : Env) (r : String) (u : UrlM)
    (hm : req.method ≠ "POST")
    (href : hGet req.headers "referer" = some r) (hne : r ≠ "")
    (hu : parseURL r = some u) :
    actionsHandler req env = .ok { status := 400, headers := [], body := .text actionsOnlyBody }
    ∧ ∀ (env' : Env) (st : StoreState), processAction req env' st = .ok ({ isAction := false }, st) := by
  have hpa : ∀ (env' : Env) (st : StoreState),
      processAction req env' st = .ok ({ isAction := false }, st) := by
    intro env' st
    unfold processAction
    rw [if_pos hm]
  refine ⟨?_, hpa⟩
  unfold actionsHandler
  rw [href]
  simp only [Option.getD_some]
  rw [if_neg hne, hu]
  simp [hpa]

/-- C10 witness: a GET with Referer http://localhost:8080/page gets the
400 response and processAction reports no action. -/
theorem gleez_C10_witness :
    actionsHandler reqGetWithReferer sinkEnv =
      .ok { status := 400, headers := [], body := .text actionsOnlyBody }
    ∧ processAction reqGetWithReferer sinkEnv freshStore = .ok ({ isAction := false }, freshStore) := by
  have h := gleez_C10_nonpost_400 reqGetWithReferer sinkEnv "http://localhost:8080/page"
    ⟨"http://localhost:8080", "/page", ""⟩ (by decide) rfl (by decide) rfl
  exact ⟨h.1, h.2 sinkEnv freshStore⟩

/-- C6: for a POST carrying a truthy action-id header whose body reads
and decodes and whose action lookup succeeds, processAction returns
isAction true with \x7b ok: true, data \x7d and no status override when
the action returns, and \x7b ok: false, data: the thrown value \x7d with
actionStatus 500 when it throws — the thrown error is never propagated
out of processAction. -/
theorem gleez_C6_fetch_action_outcomes (req : RequestM) (env : Env) (st : StoreState)
    (aid : String) (body : BodyRead) (args : JsVal) (act : ActionFn)
    (hm : req.method = "POST")
    (hid : hGet req.headers rscActionHeader = some aid) (hne : aid ≠ "")
    (hb : bodyRead req env = .ok body)
    (hdec : env.decodeReply body = .ok args)
    (hload : env.loadServerAction aid = .ok act) :
    processAction req env st = .ok
      ({ isAction := true
         returnValue := some (match (act args st).1 with
           | .ok d => ⟨true, d⟩
           | .error e => ⟨false, e⟩)
         formState := none
         temporaryReferences := true
         actionStatus := match (act args st).1 with
           | .ok _ => none
           | .error _ => some 500 },
       (act args st).2) := by
  unfold processAction
  rcases hact : act args st with ⟨r, st2⟩
  cases r <;> simp [hm, hid, hne, hb, hdec, hload, hact]

/-- C6 witness: a throwing action yields ok false with the thrown Error
"boom" and status 500, with nothing propagated. -/
theorem gleez_C6_witness :
    processAction reqAction6 envThrowingAction freshStore =
      .ok ({ isAction := true, returnValue := some ⟨false, .error "boom"⟩,
             formState := none, temporaryReferences := true, actionStatus := some 500 },
           freshStore) :=
  gleez_C6_fetch_action_outcomes reqAction6 envThrowingAction freshStore "a1"
    (.text "payload") .undef (fun _ st => (.error (.error "boom"), st))
    rfl rfl (by decide) rfl rfl rfl

/-- C7: on the same-origin forwarding path with a payload-aware Accept
header, a rejected proxied fetch or a proxied response whose content type
is not the streaming-payload type makes serverRedirect abort the
in-flight fetch (the returned flag) and answer a plain HTTP redirect:
Location is the target URL, the status is the originally requested one,
and the pending response headers are carried. -/
theorem gleez_C7_fallback_plain_redirect (req : RequestM) (store : StoreState) (env : Env)
    (rd : RedirectIntent) (u requrl : UrlM) (accept : String)
    (hrd : store.clientState.redirect = some rd)
    (hres : env.resolve rd.url req.url = some u)
    (hreq : parseURL req.url = some requrl)
    (hsame : u.origin = requrl.origin)
    (hacc : hGet req.headers "Accept" = some accept)
    (hinc : strIncludes accept "text/x-component" = true)
    (hfail : match env.fetch u.href (forwardedHeadersOf req store.responseHeaders) with
             | none => True
             | some resp => isRSCResponse resp = false) :
    serverRedirect req store env =
      .ok ({ status := rd.status, headers := hSet store.responseHeaders "Location" u.href,
             body := .empty }, true) := by
  have hco : (u.origin != requrl.origin) = false := by simp [hsame]
  cases hf : env.fetch u.href (forwardedHeadersOf req store.responseHeaders) with
  | none =>
    simp only [serverRedirect, hrd, hres, hreq, hacc, hinc, hco, hf,
      Bool.not_false, Bool.and_self, if_true]
    simp [redirectFallThrough]
  | some resp =>
    rw [hf] at hfail
    simp only [serverRedirect, hrd, hres, hreq, hacc, hinc, hco, hf,
      Bool.not_false, Bool.and_self, if_true]
    simp [hfail, redirectFallThrough]

/-- C7 witness: with a pending 307 redirect to /go, a payload-aware
same-origin request, and a rejected proxied fetch, serverRedirect aborts
and answers status 307 with Location http://h/go on the pending
headers. -/
theorem gleez_C7_witness :
    store7.clientState.redirect = some ⟨"/go", 307⟩
    ∧ env7.fetch "http://h/go" (forwardedHeadersOf req5 store7.responseHeaders) = none
    ∧ serverRedirect req5 store7 env7 =
        .ok ({ status := 307, headers := hSet store7.responseHeaders "Location" "http://h/go",
               body := .empty }, true) :=
  ⟨rfl, rfl,
    gleez_C7_fallback_plain_redirect req5 store7 env7 ⟨"/go", 307⟩
      ⟨"http://h", "/go", ""⟩ ⟨"http://h", "/x", ""⟩ "text/x-component"
      rfl rfl rfl rfl rfl (by decide) trivial⟩

theorem execute_skip_nonmatching (σ : Type) (hd : CtxM σ → Except JsVal ResponseM)
    (req : RequestM) (info : Option Nat) (state : σ) (pre rest : List (RouteM σ))
    (hpre : ∀ q ∈ pre, routeMatches q req = false) :
    execute hd req info state (pre ++ rest) = execute hd req info state rest := by
  induction pre with
  | nil => rfl
  | cons q qs ih =>
    have hq := hpre q (List.mem_cons_self q qs)
    have h' : ∀ x ∈ qs, routeMatches x req = false :=
      fun x hx => hpre x (List.mem_cons_of_mem q hx)
    rcases hqp : q.pattern req.url with _ | pq
    · simp [execute, hqp, ih h']
    · have hmm : methodMatches q.method req.method = false := by
        simp [routeMatches, hqp] at hq
        exact hq
      simp [execute, hqp, hmm, ih h']

/-- C8: dispatch is order-preserving: when every route registered before
`r` fails to match the request and `r`'s pattern and method both match,
the chain executes `r`'s handler first, with its next() bound to continue
from the routes registered after `r` (not past the whole chain). -/
theorem gleez_C8_first_match_runs (σ : Type) (router : RouterM σ) (req : RequestM)
    (info : Option Nat) (state : σ) (pre post : List (RouteM σ)) (r : RouteM σ) (p : ParamsM)
    (hroutes : router.routes = pre ++ r :: post)
    (hpre : ∀ q ∈ pre, routeMatches q req = false)
    (hpat : r.pattern req.url = some p)
    (hm : methodMatches r.method req.method = true) :
    execute router.handleDefault req info state router.routes =
      r.handler (mkCtxM req p info state
        (fun _ => execute router.handleDefault req info state post)) := by
  rw [hroutes, execute_skip_nonmatching σ router.handleDefault req info state pre (r :: post) hpre]
  simp [execute, hpat, hm]

/-- C8 witness: with two always-matching routes registered in order, the
first one's handler runs with next() continuing from the second route. -/
theorem gleez_C8_witness :
    routeMatches passRoute plainReq = true
    ∧ routeMatches secondRoute plainReq = true
    ∧ execute twoMatchRouter.handleDefault plainReq none () twoMatchRouter.routes =
        passRoute.handler (mkCtxM plainReq [] none ()
          (fun _ => execute twoMatchRouter.handleDefault plainReq none () [secondRoute])) :=
  ⟨rfl, rfl,
    gleez_C8_first_match_runs Unit twoMatchRouter plainReq none () [] [secondRoute]
      passRoute [] rfl (fun q hq => absurd hq (List.not_mem_nil q)) rfl rfl⟩

theorem hGetAll_append (h1 h2 : Hdrs) (n : String) :
    hGetAll (h1 ++ h2) n = hGetAll h1 n ++ hGetAll h2 n := by
  simp [hGetAll, List.filter_append]

theorem hGetAll_hAppend_eq (h : Hdrs) (n v m : String) (heq : lowerStr n = lowerStr m) :
    hGetAll (hAppend h n v) m = hGetAll h m ++ [v] := by
  simp [hAppend, hGetAll, List.filter_append, heq]

theorem filter_filter_of_imp {α : Type} (p q : α → Bool) (l : List α)
    (hpq : ∀ a, p a = true → q a = true) :
    (l.filter q).filter p = l.filter p := by
  induction l with
  | nil => rfl
  | cons a t ih =>
    by_cases hq : q a = true
    · by_cases hp : p a = true
      · simp [List.filter_cons, hq, hp, ih]
      · simp [List.filter_cons, hq, hp, ih]
    · have hp : ¬ p a = true := fun hpa => hq (hpq a hpa)
      simp [List.filter_cons, hq, hp, ih]

theorem filter_filter_of_excl {α : Type} (p q : α → Bool) (l : List α)
    (hpq : ∀ a, q a = true → p a = false) :
    (l.filter q).filter p = [] := by
  induction l with
  | nil => rfl
  | cons a t ih =>
    by_cases hq : q a = true
    · have hp := hpq a hq
      simp [List.filter_cons, hq, hp, ih]
    · simp [List.filter_cons, hq, ih]

theorem hGetAll_hDelete_eq (h : Hdrs) (n m : String) (heq : lowerStr n = lowerStr m) :
    hGetAll (hDelete h n) m = [] := by
  unfold hGetAll hDelete
  rw [filter_filter_of_excl]
  · rfl
  · intro a hq
    simp only [decide_eq_true_eq] at hq
    simp only [decide_eq_false_iff_not]
    rw [← heq]
    exact hq

theorem hGetAll_hDelete_ne (h : Hdrs) (n m : String) (hne : lowerStr n ≠ lowerStr m) :
    hGetAll (hDelete h n) m = hGetAll h m := by
  unfold hGetAll hDelete
  rw [filter_filter_of_imp]
  intro a hp
  simp only [decide_eq_true_eq] at hp ⊢
  exact fun hcontra => hne (hcontra ▸ hp)

theorem hGetAll_hSet_ne (h : Hdrs) (n v m : String) (hne : lowerStr n ≠ lowerStr m) :
    hGetAll (hSet h n v) m = hGetAll h m := by
  unfold hSet
  rw [hGetAll_append, hGetAll_hDelete_ne h n m hne]
  simp [hGetAll, hne]

theorem getSetCookies_name_ne (h : Hdrs) : ∀ c ∈ getSetCookies h, c.1 ≠ "" := by
  intro c hc
  unfold getSetCookies at hc
  rw [List.mem_filterMap] at hc
  obtain ⟨s, _, hp⟩ := hc
  unfold parseSetCookie at hp
  split at hp
  · exact Option.noConfusion hp
  · split at hp
    · exact Option.noConfusion hp
    · split at hp
      · exact Option.noConfusion hp
      · rename_i hk
        cases hp
        simpa using hk

theorem foldl_setCookie_getAll (cs : List (String × String)) (h : Hdrs)
    (hcs : ∀ c ∈ cs, c.1 ≠ "") :
    hGetAll (cs.foldl setCookie h) "set-cookie" =
      hGetAll h "set-cookie" ++ cs.map (fun c => c.1 ++ "=" ++ c.2) := by
  induction cs generalizing h with
  | nil => simp
  | cons c t ih =>
    have hc : c.1 ≠ "" := hcs c (List.mem_cons_self c t)
    have ht : ∀ x ∈ t, x.1 ≠ "" := fun x hx => hcs x (List.mem_cons_of_mem c hx)
    simp only [List.foldl_cons, List.map_cons]
    rw [ih (setCookie h c) ht]
    unfold setCookie
    rw [if_neg hc, hGetAll_hAppend_eq h "Set-Cookie" (c.1 ++ "=" ++ c.2) "set-cookie" rfl]
    simp

theorem rscRewriteHeaders_setCookies (cl : ClientRouteState) (pending proxied : Hdrs)
    (u : UrlM) :
    hGetAll (rscRewriteHeaders cl pending proxied u) "set-cookie" =
      (getSetCookies pending ++ getSetCookies proxied).map (fun c => c.1 ++ "=" ++ c.2) := by
  have hnames : ∀ c ∈ getSetCookies pending ++ getSetCookies proxied, c.1 ≠ "" := by
    intro c hc
    rcases List.mem_append.mp hc with h | h
    · exact getSetCookies_name_ne pending c h
    · exact getSetCookies_name_ne proxied c h
  unfold rscRewriteHeaders
  rw [hGetAll_hSet_ne _ _ _ _ (by decide)]
  rw [foldl_setCookie_getAll _ _ hnames]
  by_cases hrev : cl.revalidatePaths.isEmpty = true
  · rw [if_pos hrev, hGetAll_hDelete_eq proxied "Set-Cookie" "set-cookie" rfl]
    simp
  · rw [if_neg hrev, hGetAll_hSet_ne _ _ _ _ (by decide),
      hGetAll_hDelete_eq proxied "Set-Cookie" "set-cookie" rfl]
    simp

/-- C5 counterexample: with pending Set-Cookie a=1 and a proxied
streaming-payload response carrying Set-Cookie a=2, the returned response
carries BOTH Set-Cookie headers a=1 and a=2 (appended in order), whereas
a re-merge under the Merger's later-overrides-earlier rule would yield
only a=2; the claim as stated is therefore false. -/
theorem gleez_C5_counterexample :
    (serverRedirect req5 store5 env5).map (fun r => hGetAll r.1.headers "set-cookie") =
      .ok ["a=1", "a=2"]
    ∧ (specSetCookieOverrideMerge pendingHdrs5 proxiedHdrs5).map (fun c => c.1 ++ "=" ++ c.2) =
        ["a=2"]
    ∧ (["a=1", "a=2"] : List String) ≠ ["a=2"] :=
  ⟨rfl, rfl, by decide⟩

/-- C5 (amended): on the same-origin payload-aware forwarding path with a
streaming-payload proxied response, the proxied response's own Set-Cookie
headers are all dropped first, and the returned response's Set-Cookie
headers are then the Set-Cookie entries parsed from (pending response
headers, proxied response headers) re-serialized and appended in that
order — same-named entries are NOT deduplicated, both survive with the
proxied one later (so a client applying them in order ends on the proxied
value). -/
theorem gleez_C5_rsc_rewrite (req : RequestM) (store : StoreState) (env : Env)
    (rd : RedirectIntent) (u requrl : UrlM) (accept : String) (resp : FetchResp)
    (hrd : store.clientState.redirect = some rd)
    (hres : env.resolve rd.url req.url = some u)
    (hreq : parseURL req.url = some requrl)
    (hsame : u.origin = requrl.origin)
    (hacc : hGet req.headers "Accept" = some accept)
    (hinc : strIncludes accept "text/x-component" = true)
    (hfetch : env.fetch u.href (forwardedHeadersOf req store.responseHeaders) = some resp)
    (hrsc : isRSCResponse resp = true) :
    serverRedirect req store env =
      .ok ({ status := 200
             headers := rscRewriteHeaders store.clientState store.responseHeaders resp.headers u
             body := .proxied resp.bodyTag }, false)
    ∧ hGetAll (rscRewriteHeaders store.clientState store.responseHeaders resp.headers u)
        "set-cookie" =
        (getSetCookies store.responseHeaders ++ getSetCookies resp.headers).map
          (fun c => c.1 ++ "=" ++ c.2) := by
  refine ⟨?_, rscRewriteHeaders_setCookies store.clientState store.responseHeaders resp.headers u⟩
  have hco : (u.origin != requrl.origin) = false := by simp [hsame]
  simp only [serverRedirect, hrd, hres, hreq, hacc, hinc, hco, hfetch,
    Bool.not_false, Bool.and_self, if_true]
  simp [hrsc]

/-- C5 witness: the amended statement evaluated on the concrete a=1 / a=2
run. -/
theorem gleez_C5_witness :
    serverRedirect req5 store5 env5 =
      .ok ({ status := 200
             headers := rscRewriteHeaders store5.clientState store5.responseHeaders proxiedHdrs5
               ⟨"http://h", "/next", ""⟩
             body := .proxied 7 }, false)
    ∧ hGetAll (rscRewriteHeaders store5.clientState store5.responseHeaders proxiedHdrs5
        ⟨"http://h", "/next", ""⟩) "set-cookie" =
        (getSetCookies store5.responseHeaders ++ getSetCookies proxiedHdrs5).map
          (fun c => c.1 ++ "=" ++ c.2) :=
  gleez_C5_rsc_rewrite req5 store5 env5 ⟨"/next", 303⟩ ⟨"http://h", "/next", ""⟩
    ⟨"http://h", "/x", ""⟩ "text/x-component" ⟨proxiedHdrs5, 7⟩
    rfl rfl rfl rfl rfl (by decide) rfl rfl

end Gleez
